import Mathlib

/-!
Shallow embedding of the `relatedIdeas` similarity-retrieval core.

The development models the three source modules that carry the algorithmic
content of the repository:

* `src/app/embeddings.py` — `cosine_similarity` and the deterministic
  hash-based provider `SimpleHashEmbeddingProvider.embed`;
* `src/app/storage.py` — `FileEmbeddingStore.save` / `FileEmbeddingStore.all`,
  with the on-disk directory modelled explicitly as a `DiskState` (one JSON
  metadata file and one NPY vector file per record);
* `src/app/retrieval.py` — `JiraRetriever.find_similar`.

Modelling conventions: Python floats (and the float32 round-trip through NPY)
are idealised as exact real numbers; Python's builtin `hash` is an arbitrary
parameter `hashFn : String → Int` (its value is salted per process);
`uuid.uuid4()` is an arbitrary parameter `issue_id : String`, with freshness
stated as a hypothesis where a theorem needs it; code paths that raise a
Python exception are modelled with `Option` (`none` = the call raises).
Python's stable `list.sort` is modelled by `List.insertionSort`, which is a
stable sort, and `sorted(glob("*.json"))` by sorting file names in the
code-point lexicographic order on their character lists (the same order
Python uses on `str`).
-/

namespace RelatedIdeas

/-! ### Vectors and cosine similarity (`src/app/embeddings.py`) -/

/-- Model of `np.dot(a, b)` for two equal-length vectors: a sum of products. -/
def dot (a b : List ℝ) : ℝ := (List.zipWith (fun x y => x * y) a b).sum

/-- Model of `np.linalg.norm(v)`: the L2 norm, the square root of the sum of squares. -/
noncomputable def vecNorm (v : List ℝ) : ℝ := Real.sqrt (dot v v)

/-- Function `cosine_similarity` from `src/app/embeddings.py` (lines 182–190):
returns `0.0` when the shapes differ or the vectors are empty, returns `0.0`
when the product of norms is zero, and otherwise divides the dot product by
the product of norms. -/
noncomputable def cosine_similarity (a b : List ℝ) : ℝ :=
  if a.length ≠ b.length ∨ a.length = 0 then 0
  else
    let denom := vecNorm a * vecNorm b
    if denom = 0 then 0 else dot a b / denom

/-! ### The hash-based embedding provider (`src/app/embeddings.py`, 42–56)

`text.lower().split()` is modelled character-by-character: lowercase every
character, then split on runs of whitespace, discarding empty segments. -/

/-- Accumulator-style whitespace splitter over a character list; `acc` holds
the current (reversed) token. Models Python's `str.split()` with no
separator argument. -/
def splitWSAux : List Char → List Char → List (List Char)
  | [], acc => if acc.isEmpty then [] else [acc.reverse]
  | c :: rest, acc =>
    if c.isWhitespace then
      if acc.isEmpty then splitWSAux rest [] else acc.reverse :: splitWSAux rest []
    else splitWSAux rest (c :: acc)

/-- Model of `text.lower().split()`: lowercase, then split on whitespace runs. -/
def pyTokens (text : String) : List String :=
  (splitWSAux (text.toList.map Char.toLower) []).map List.asString

/-- Model of `hash(token) % dim` for `dim > 0`: Python's `%` on a positive modulus
returns a non-negative remainder, which is `Int.emod` followed by `toNat`. -/
def tokenIdx (hashFn : String → Int) (dim : Nat) (t : String) : Nat :=
  (hashFn t % (dim : Int)).toNat

/-- Model of `vec[idx] += 1.0`. -/
def bump (v : List ℝ) (i : Nat) : List ℝ := v.set i (v.getD i 0 + 1)

/-- The token-count accumulation loop of `SimpleHashEmbeddingProvider.embed`,
starting from `np.zeros(dim)`. -/
def countVec (hashFn : String → Int) (dim : Nat) (ts : List String) : List ℝ :=
  ts.foldl (fun v t => bump v (tokenIdx hashFn dim t)) (List.replicate dim 0)

/-- Method `SimpleHashEmbeddingProvider.embed` (`src/app/embeddings.py`, 42–56).
`none` models a raised exception: with `dim = 0` and at least one token,
`hash(token) % 0` raises `ZeroDivisionError` at the first loop iteration.
Otherwise: empty text returns the zero vector, and the accumulated count
vector is divided by its L2 norm exactly when that norm is positive. -/
noncomputable def SimpleHashEmbeddingProvider.embed
    (hashFn : String → Int) (dim : Nat) (text : String) : Option (List ℝ) :=
  if text = "" then some (List.replicate dim 0)
  else if dim = 0 ∧ pyTokens text ≠ [] then none
  else
    let vec := countVec hashFn dim (pyTokens text)
    let nrm := vecNorm vec
    if 0 < nrm then some (vec.map (fun x => x / nrm)) else some vec

/-! ### The file store (`src/app/storage.py`) -/

/-- Record model `StoredIssue` from `src/app/storage.py`. -/
structure StoredIssue where
  id : String
  jira_key : Option String
  summary : String
  description : Option String
  embedding : List ℝ

/-- The observable content of one metadata JSON file, as `FileEmbeddingStore.all`
reads it: whether the legacy `"embedding"` key is present, and the values of
`"id"`, `"jira_key"`, `"summary"`, `"description"` (`none` = key absent). -/
structure RawMeta where
  hasEmbeddingKey : Bool
  id : Option String
  jira_key : Option String
  summary : Option String
  description : Option String
deriving DecidableEq

/-- The store directory: `jsonFiles` maps each `*.json` file name to its parse
result (`none` = `json.loads` raises), `npyFiles` maps each `*.npy` file name
to its load result (`none` = `np.load` raises; an absent name = no such file). -/
structure DiskState where
  jsonFiles : List (String × Option RawMeta)
  npyFiles : List (String × Option (List ℝ))

/-- Writing a file: replaces any existing file of the same name. -/
def fsWrite {α : Type} (files : List (String × α)) (name : String) (content : α) :
    List (String × α) :=
  (name, content) :: files.filter (fun e => e.1 != name)

namespace FileEmbeddingStore

/-- Method `FileEmbeddingStore.save` (`src/app/storage.py`, 54–86): writes the
metadata JSON under `{id}.json`, the vector under `{id}.npy`, and returns the
in-memory record. The generated `uuid4` is the parameter `issue_id`. -/
def save (disk : DiskState) (issue_id : String) (jira_key : Option String)
    (summary : String) (description : Option String) (embedding : List ℝ) :
    StoredIssue × DiskState :=
  let metadata : RawMeta :=
    { hasEmbeddingKey := false, id := some issue_id, jira_key := jira_key,
      summary := some summary, description := description }
  let disk' : DiskState :=
    { jsonFiles := fsWrite disk.jsonFiles (issue_id ++ ".json") (some metadata),
      npyFiles := fsWrite disk.npyFiles (issue_id ++ ".npy") (some embedding) }
  (⟨issue_id, jira_key, summary, description, embedding⟩, disk')

/-- The per-file body of the `FileEmbeddingStore.all` loop
(`src/app/storage.py`, 96–131): `none` whenever the `try` body raises or hits
a `continue` — unparseable JSON, a legacy `"embedding"` key, a falsy `"id"`
(absent or empty), a missing NPY file, a failing `np.load`, or a missing
`"summary"` key (a `KeyError` caught by the `except`). -/
def parseEntry (npy : List (String × Option (List ℝ)))
    (e : String × Option RawMeta) : Option StoredIssue :=
  match e.2 with
  | none => none
  | some m =>
    if m.hasEmbeddingKey then none
    else
      match m.id with
      | none => none
      | some iid =>
        if iid = "" then none
        else
          match List.lookup (iid ++ ".npy") npy with
          | none => none
          | some none => none
          | some (some emb) =>
            match m.summary with
            | none => none
            | some s => some ⟨iid, m.jira_key, s, m.description, emb⟩

/-- Method `FileEmbeddingStore.all` (`src/app/storage.py`, 88–133): scan the metadata
files in sorted name order, keeping the records whose loop body completes. -/
def all (disk : DiskState) : List StoredIssue :=
  (List.insertionSort (fun a b => a.1.toList ≤ b.1.toList) disk.jsonFiles).filterMap
    (parseEntry disk.npyFiles)

end FileEmbeddingStore

/-! ### The retriever (`src/app/retrieval.py`) -/

/-- Request model `JiraIssueCreate` from `src/app/schemas.py`. -/
structure JiraIssueCreate where
  jira_key : Option String
  summary : String
  description : Option String

/-- Response model `SimilarIssue` from `src/app/schemas.py`: a stored record plus its score. -/
structure SimilarIssue where
  id : String
  jira_key : Option String
  summary : String
  description : Option String
  score : ℝ

/-- The `debug_info` dictionary built by `find_similar`. -/
structure DebugInfo where
  total_issues_in_index : Nat
  checked_issues : Nat
  passed_min_score : Nat
  min_score_threshold : ℝ
  max_score_found : ℝ
  min_score_found : ℝ
  avg_score : ℝ

/-- Model of `max(scores)` with `0.0` for an empty list. -/
noncomputable def maxScore : List ℝ → ℝ
  | [] => 0
  | x :: xs => xs.foldl max x

/-- Model of `min(scores)` with `0.0` for an empty list. -/
noncomputable def minScore : List ℝ → ℝ
  | [] => 0
  | x :: xs => xs.foldl min x

/-- Model of `sum(scores) / len(scores)` with `0.0` for an empty list. -/
noncomputable def avgScore : List ℝ → ℝ
  | [] => 0
  | x :: xs => (x :: xs).sum / ((x :: xs).length : ℝ)

/-- Class `JiraRetriever` holds the `EmbeddingProvider` capability; the provider is
abstracted to its `embed(text) -> vector` contract. -/
structure JiraRetriever where
  embed : String → List ℝ

/-- The comparison text `f"{summary}\n{description or ''}"` built by
`index_issue` and `find_similar`. -/
def queryText (q : JiraIssueCreate) : String :=
  q.summary ++ "\n" ++ q.description.getD ""

/-- The order `candidates.sort(key=lambda x: x.score, reverse=True)` sorts by:
`a` comes before `b` when `b.score ≤ a.score` (descending, stable). -/
def scoreGE (a b : SimilarIssue) : Prop := b.score ≤ a.score

noncomputable instance : DecidableRel scoreGE :=
  fun a b => inferInstanceAs (Decidable (b.score ≤ a.score))

instance : IsTotal SimilarIssue scoreGE := ⟨fun a b => le_total b.score a.score⟩

instance : IsTrans SimilarIssue scoreGE :=
  ⟨fun _ _ _ hab hbc => le_trans hbc hab⟩

/-- The scan loop of `find_similar` (`src/app/retrieval.py`, 88–105): score
every stored issue, `continue` when `score < min_score`, and otherwise keep a
`SimilarIssue`, in store order. -/
noncomputable def scanCandidates (query_vec : List ℝ) (issues : List StoredIssue)
    (min_score : ℝ) : List SimilarIssue :=
  issues.filterMap (fun issue =>
    let score := cosine_similarity query_vec issue.embedding
    if score < min_score then none
    else some ⟨issue.id, issue.jira_key, issue.summary, issue.description, score⟩)

/-- Python's `l[:k]`: for `k ≥ 0` the first `k` elements, for `k < 0` all but
the last `|k|` elements. -/
def pySlice {α : Type} (l : List α) (k : Int) : List α :=
  if k < 0 then l.take (l.length - k.natAbs) else l.take k.toNat

/-- Method `JiraRetriever.find_similar` (`src/app/retrieval.py`, 49–130). The result
quadruple is `(query_issue, candidates[:top_k], debug_info, new disk state)`;
the disk state is threaded explicitly because `store.save` writes files.
`issue_id` is the `uuid4` that `store.save` would generate. -/
noncomputable def JiraRetriever.find_similar (r : JiraRetriever) (disk : DiskState)
    (query : JiraIssueCreate) (top_k : Int) (min_score : ℝ) (store_query : Bool)
    (issue_id : String) : StoredIssue × List SimilarIssue × DebugInfo × DiskState :=
  let query_vec := r.embed (queryText query)
  let all_issues := FileEmbeddingStore.all disk
  let query_issue_temp : StoredIssue :=
    ⟨"temp_query", query.jira_key, query.summary, query.description, query_vec⟩
  let all_scores := all_issues.map (fun issue => cosine_similarity query_vec issue.embedding)
  let candidates := scanCandidates query_vec all_issues min_score
  let sortedCandidates := List.insertionSort scoreGE candidates
  let afterStore :=
    if store_query then
      FileEmbeddingStore.save disk issue_id query.jira_key query.summary
        query.description query_vec
    else (query_issue_temp, disk)
  let debug : DebugInfo :=
    { total_issues_in_index := all_issues.length
      checked_issues := all_issues.length
      passed_min_score := candidates.length
      min_score_threshold := min_score
      max_score_found := maxScore all_scores
      min_score_found := minScore all_scores
      avg_score := avgScore all_scores }
  (afterStore.1, pySlice sortedCandidates top_k, debug, afterStore.2)

/-! ### Concrete states used by witnesses and counterexamples -/

/-- An empty store directory. -/
def emptyDisk : DiskState := ⟨[], []⟩

/-- A simple unit vector used by concrete stores. -/
def oneVec : List ℝ := [1, 0]

/-- A retriever whose provider embeds every text to `oneVec`. -/
def embedOne : JiraRetriever := ⟨fun _ => oneVec⟩

/-- Metadata of a valid record with id `"a"`. -/
def metaA : RawMeta := ⟨false, some "a", none, some "summary a", none⟩

/-- Metadata of a valid record with id `"b"`. -/
def metaB : RawMeta := ⟨false, some "b", none, some "summary b", none⟩

/-- Metadata of a valid record with id `"c"`. -/
def metaC : RawMeta := ⟨false, some "c", none, some "summary c", none⟩

/-- A store directory holding two valid records `"a"` and `"b"`. -/
def twoDisk : DiskState :=
  ⟨[("a.json", some metaA), ("b.json", some metaB)],
   [("a.npy", some oneVec), ("b.npy", some oneVec)]⟩

/-- A query issue. -/
def queryQ : JiraIssueCreate := ⟨none, "q", none⟩

/-! ### Helper lemmas -/

theorem pySlice_of_nonneg {α : Type} (l : List α) {k : Int} (h : 0 ≤ k) :
    pySlice l k = l.take k.toNat := if_neg (not_lt.2 h)

theorem pySlice_of_neg {α : Type} (l : List α) {k : Int} (h : k < 0) :
    pySlice l k = l.take (l.length - k.natAbs) := if_pos h

theorem pySlice_sublist {α : Type} (l : List α) (k : Int) :
    List.Sublist (pySlice l k) l := by
  unfold pySlice
  split
  · exact List.take_sublist _ _
  · exact List.take_sublist _ _

theorem pySlice_isPrefix {α : Type} (l : List α) (k : Int) :
    List.IsPrefix (pySlice l k) l := by
  unfold pySlice
  split
  · exact List.take_prefix _ _
  · exact List.take_prefix _ _

/-- Characterisation of membership in the scan loop's kept candidates. -/
theorem mem_scanCandidates {c : SimilarIssue} {qv : List ℝ} {issues : List StoredIssue}
    {ms : ℝ} :
    c ∈ scanCandidates qv issues ms ↔
      ∃ issue ∈ issues, ¬ cosine_similarity qv issue.embedding < ms ∧
        c = ⟨issue.id, issue.jira_key, issue.summary, issue.description,
             cosine_similarity qv issue.embedding⟩ := by
  constructor
  · intro h
    rcases List.mem_filterMap.1 h with ⟨issue, hmem, heq⟩
    dsimp only at heq
    split at heq
    · exact absurd heq (by simp)
    · exact ⟨issue, hmem, by assumption, (Option.some.inj heq).symm⟩
  · rintro ⟨issue, hmem, hscore, rfl⟩
    refine List.mem_filterMap.2 ⟨issue, hmem, ?_⟩
    dsimp only
    rw [if_neg hscore]

/-- The ranked candidates returned by `find_similar`, unfolded. -/
theorem find_similar_ranked (r : JiraRetriever) (disk : DiskState) (q : JiraIssueCreate)
    (tk : Int) (ms : ℝ) (sq : Bool) (fid : String) :
    (r.find_similar disk q tk ms sq fid).2.1 =
      pySlice (List.insertionSort scoreGE
        (scanCandidates (r.embed (queryText q)) (FileEmbeddingStore.all disk) ms)) tk := rfl

/-- Membership in the ranked candidates implies membership in the scan list. -/
theorem mem_ranked_mem_scan {r : JiraRetriever} {disk : DiskState} {q : JiraIssueCreate}
    {tk : Int} {ms : ℝ} {sq : Bool} {fid : String} {c : SimilarIssue}
    (h : c ∈ (r.find_similar disk q tk ms sq fid).2.1) :
    c ∈ scanCandidates (r.embed (queryText q)) (FileEmbeddingStore.all disk) ms := by
  rw [find_similar_ranked] at h
  exact (List.mem_insertionSort scoreGE).1 ((pySlice_sublist _ _).mem h)

/-- The two-record store scans to its two records, in name order. -/
theorem all_twoDisk :
    FileEmbeddingStore.all twoDisk =
      [⟨"a", none, "summary a", none, oneVec⟩, ⟨"b", none, "summary b", none, oneVec⟩] := rfl

/-! ### Claim theorems -/

/-- C4: `cosine_similarity` returns `0.0` whenever the two vectors have
different lengths, either vector is empty, or either vector has zero norm.
In each of these cases the definition takes a guard branch that returns `0`
before the division is reached, so no division by zero is performed. -/
theorem cosine_similarity_safe_zero (a b : List ℝ)
    (h : a.length ≠ b.length ∨ a = [] ∨ b = [] ∨ vecNorm a = 0 ∨ vecNorm b = 0) :
    cosine_similarity a b = 0 := by
  unfold cosine_similarity
  by_cases hlen : a.length ≠ b.length ∨ a.length = 0
  · rw [if_pos hlen]
  · rw [if_neg hlen]
    push_neg at hlen
    obtain ⟨hl, hn⟩ := hlen
    have hd : vecNorm a * vecNorm b = 0 := by
      rcases h with h | h | h | h | h
      · exact absurd hl h
      · exact absurd (by simp [h]) hn
      · exact absurd (hl.trans (by simp [h])) hn
      · rw [h, zero_mul]
      · rw [h, mul_zero]
    show (if vecNorm a * vecNorm b = 0 then (0 : ℝ)
      else dot a b / (vecNorm a * vecNorm b)) = 0
    rw [if_pos hd]

/-- C4 witness: both vectors `[0]` have zero norm, hence similarity `0`. -/
theorem cosine_similarity_safe_zero_witness :
    cosine_similarity [(0 : ℝ)] [(0 : ℝ)] = 0 :=
  cosine_similarity_safe_zero [(0 : ℝ)] [(0 : ℝ)]
    (Or.inr (Or.inr (Or.inr (Or.inl (by simp [vecNorm, dot])))))

/-- C3 (amended): `find_similar` never fails for `top_k ≤ 0`; with
`top_k = 0` the ranked list is empty, but a negative `top_k` follows Python
slice semantics: `candidates[:top_k]` drops the last `|top_k|` kept
candidates, so the result is empty only when `|top_k|` is at least the number
of candidates that passed the threshold. -/
theorem find_similar_top_k_nonpositive (r : JiraRetriever) (disk : DiskState)
    (q : JiraIssueCreate) (ms : ℝ) (sq : Bool) (fid : String) :
    (r.find_similar disk q 0 ms sq fid).2.1 = [] ∧
    ∀ tk : Int, tk < 0 →
      ((r.find_similar disk q tk ms sq fid).2.1).length =
        (scanCandidates (r.embed (queryText q)) (FileEmbeddingStore.all disk) ms).length
          - tk.natAbs := by
  constructor
  · rw [find_similar_ranked, pySlice_of_nonneg _ le_rfl]
    simp
  · intro tk htk
    rw [find_similar_ranked, pySlice_of_neg _ htk, List.length_take,
      List.length_insertionSort]
    exact Nat.min_eq_left (Nat.sub_le _ _)

/-- C3 witness: on the empty store with `top_k = 0` the result is empty, and
with `top_k = -1` its length is `0 - 1 = 0`. -/
theorem find_similar_top_k_nonpositive_witness :
    (embedOne.find_similar emptyDisk queryQ 0 (1 / 2) false "fresh").2.1 = [] ∧
    ((embedOne.find_similar emptyDisk queryQ (-1) (1 / 2) false "fresh").2.1).length =
      (scanCandidates (embedOne.embed (queryText queryQ))
        (FileEmbeddingStore.all emptyDisk) (1 / 2)).length - (-1 : Int).natAbs :=
  ⟨(find_similar_top_k_nonpositive embedOne emptyDisk queryQ (1 / 2) false "fresh").1,
   (find_similar_top_k_nonpositive embedOne emptyDisk queryQ (1 / 2) false "fresh").2
     (-1) (by decide)⟩

/-- C9: with `store_query = False` the first call leaves the store state
unchanged, so a second call on the state produced by the first call (with the
same query, `top_k` and `min_score`, and whatever uuid the process would draw
next) returns the identical ranked candidate list. -/
theorem find_similar_scoring_idempotent (r : JiraRetriever) (disk : DiskState)
    (q : JiraIssueCreate) (tk : Int) (ms : ℝ) (fid fid' : String) :
    (r.find_similar ((r.find_similar disk q tk ms false fid).2.2.2)
        q tk ms false fid').2.1 =
      (r.find_similar disk q tk ms false fid).2.1 := rfl

/-- C8: with `store_query = False`, `find_similar` performs no save — the
returned store state is the input state — and returns the transient query
record carrying the reserved sentinel id `"temp_query"`; with
`store_query = True` it performs exactly the one `store.save`, the returned
record is the persisted one with the real generated uuid, and the ranked
candidates are the same as in the non-persisting call (the save happens after
scoring). The hypothesis records that a generated uuid4 string is never the
sentinel `"temp_query"`. -/
theorem find_similar_store_query_frame (r : JiraRetriever) (disk : DiskState)
    (q : JiraIssueCreate) (tk : Int) (ms : ℝ) (fid : String)
    (hfid : fid ≠ "temp_query") :
    ((r.find_similar disk q tk ms false fid).2.2.2 = disk ∧
      (r.find_similar disk q tk ms false fid).1.id = "temp_query") ∧
    ((r.find_similar disk q tk ms true fid).2.2.2 =
        (FileEmbeddingStore.save disk fid q.jira_key q.summary q.description
          (r.embed (queryText q))).2 ∧
      (r.find_similar disk q tk ms true fid).1 =
        (FileEmbeddingStore.save disk fid q.jira_key q.summary q.description
          (r.embed (queryText q))).1 ∧
      (r.find_similar disk q tk ms true fid).1.id = fid ∧
      (r.find_similar disk q tk ms true fid).2.1 =
        (r.find_similar disk q tk ms false fid).2.1) ∧
    (r.find_similar disk q tk ms false fid).1.id ≠
      (r.find_similar disk q tk ms true fid).1.id := by
  refine ⟨⟨rfl, rfl⟩, ⟨rfl, rfl, rfl, rfl⟩, ?_⟩
  show "temp_query" ≠ fid
  exact fun h => hfid h.symm

/-- C8 witness: on the empty store with uuid `"u1"`. -/
theorem find_similar_store_query_frame_witness :
    ((embedOne.find_similar emptyDisk queryQ 5 (1 / 2) false "u1").2.2.2 = emptyDisk ∧
      (embedOne.find_similar emptyDisk queryQ 5 (1 / 2) false "u1").1.id = "temp_query") ∧
    ((embedOne.find_similar emptyDisk queryQ 5 (1 / 2) true "u1").2.2.2 =
        (FileEmbeddingStore.save emptyDisk "u1" queryQ.jira_key queryQ.summary
          queryQ.description (embedOne.embed (queryText queryQ))).2 ∧
      (embedOne.find_similar emptyDisk queryQ 5 (1 / 2) true "u1").1 =
        (FileEmbeddingStore.save emptyDisk "u1" queryQ.jira_key queryQ.summary
          queryQ.description (embedOne.embed (queryText queryQ))).1 ∧
      (embedOne.find_similar emptyDisk queryQ 5 (1 / 2) true "u1").1.id = "u1" ∧
      (embedOne.find_similar emptyDisk queryQ 5 (1 / 2) true "u1").2.1 =
        (embedOne.find_similar emptyDisk queryQ 5 (1 / 2) false "u1").2.1) ∧
    (embedOne.find_similar emptyDisk queryQ 5 (1 / 2) false "u1").1.id ≠
      (embedOne.find_similar emptyDisk queryQ 5 (1 / 2) true "u1").1.id :=
  find_similar_store_query_frame embedOne emptyDisk queryQ 5 (1 / 2) "u1" (by decide)

/-- C1: the records scored by `find_similar` are exactly the store snapshot
read before any persistence of the query: every ranked candidate's id is the
id of a record already in the store before the call, and — provided the
freshly generated uuid does not collide with a stored id — the just-persisted
query record never appears among the ranked candidates, even when
`store_query = True`. -/
theorem find_similar_scores_snapshot (r : JiraRetriever) (disk : DiskState)
    (q : JiraIssueCreate) (tk : Int) (ms : ℝ) (sq : Bool) (fid : String)
    (hfresh : fid ∉ (FileEmbeddingStore.all disk).map (fun i => i.id)) :
    (∀ c ∈ (r.find_similar disk q tk ms sq fid).2.1,
      c.id ∈ (FileEmbeddingStore.all disk).map (fun i => i.id)) ∧
    (sq = true → (r.find_similar disk q tk ms sq fid).1.id = fid ∧
      ∀ c ∈ (r.find_similar disk q tk ms sq fid).2.1, c.id ≠ fid) := by
  have hids : ∀ c ∈ (r.find_similar disk q tk ms sq fid).2.1,
      c.id ∈ (FileEmbeddingStore.all disk).map (fun i => i.id) := by
    intro c hc
    rcases mem_scanCandidates.1 (mem_ranked_mem_scan hc) with ⟨issue, hmem, _, rfl⟩
    exact List.mem_map.2 ⟨issue, hmem, rfl⟩
  refine ⟨hids, fun hsq => ⟨?_, fun c hc hcid => hfresh (hcid ▸ hids c hc)⟩⟩
  subst hsq
  rfl

/-- C1 witness: store `"a"`, `"b"` with a fresh uuid `"fresh"`. -/
theorem find_similar_scores_snapshot_witness :
    (∀ c ∈ (embedOne.find_similar twoDisk queryQ 5 (1 / 2) true "fresh").2.1,
      c.id ∈ (FileEmbeddingStore.all twoDisk).map (fun i => i.id)) ∧
    ((true : Bool) = true →
      (embedOne.find_similar twoDisk queryQ 5 (1 / 2) true "fresh").1.id = "fresh" ∧
      ∀ c ∈ (embedOne.find_similar twoDisk queryQ 5 (1 / 2) true "fresh").2.1,
        c.id ≠ "fresh") :=
  find_similar_scores_snapshot embedOne twoDisk queryQ 5 (1 / 2) true "fresh"
    (by decide)

/-- Every candidate kept by the scan loop passed the `min_score` threshold. -/
theorem scanCandidates_score_ge {c : SimilarIssue} {qv : List ℝ}
    {issues : List StoredIssue} {ms : ℝ} (h : c ∈ scanCandidates qv issues ms) :
    ms ≤ c.score := by
  rcases mem_scanCandidates.1 h with ⟨issue, _, hscore, rfl⟩
  exact not_lt.1 hscore

/-- Stability of the sort: filtering the sorted candidates by any predicate
that holds only within one `scoreGE`-equivalence class gives the same list as
filtering the unsorted candidates, i.e. ties keep their scan order. -/
theorem filter_insertionSort_of_class (L : List SimilarIssue) (p : SimilarIssue → Bool)
    (hp : ∀ a b, p a = true → p b = true → scoreGE a b) :
    (List.insertionSort scoreGE L).filter p = L.filter p := by
  have hpair : (L.filter p).Pairwise scoreGE :=
    List.pairwise_of_forall_mem_list fun a ha b hb =>
      hp a b (List.of_mem_filter ha) (List.of_mem_filter hb)
  have h1 : List.Sublist (L.filter p) (List.insertionSort scoreGE L) :=
    List.sublist_insertionSort hpair (List.filter_sublist L)
  have h2 := h1.filter p
  simp only [List.filter_filter, Bool.and_self] at h2
  have h3 : List.Perm ((List.insertionSort scoreGE L).filter p) (L.filter p) :=
    (List.perm_insertionSort scoreGE L).filter p
  exact (h2.eq_of_length h3.length_eq.symm).symm

/-- C2: the ranked candidates of `find_similar` are sorted by score
descending; ties keep the original scan order (filtering the output by any
fixed score value yields a prefix of the scan-order candidates with that
score); every returned candidate has `score ≥ min_score`; and for
`top_k ≥ 0` at most `top_k` candidates are returned. -/
theorem find_similar_ranked_sorted_filtered (r : JiraRetriever) (disk : DiskState)
    (q : JiraIssueCreate) (tk : Int) (ms : ℝ) (sq : Bool) (fid : String) :
    List.Sorted scoreGE (r.find_similar disk q tk ms sq fid).2.1 ∧
    (∀ c ∈ (r.find_similar disk q tk ms sq fid).2.1, ms ≤ c.score) ∧
    (0 ≤ tk → ((r.find_similar disk q tk ms sq fid).2.1).length ≤ tk.toNat) ∧
    (∀ s : ℝ, List.IsPrefix
      (((r.find_similar disk q tk ms sq fid).2.1).filter (fun c => decide (c.score = s)))
      ((scanCandidates (r.embed (queryText q)) (FileEmbeddingStore.all disk) ms).filter
        (fun c => decide (c.score = s)))) := by
  refine ⟨?_, ?_, ?_, ?_⟩
  · rw [find_similar_ranked]
    exact List.Pairwise.sublist (pySlice_sublist _ _) (List.sorted_insertionSort scoreGE _)
  · intro c hc
    exact scanCandidates_score_ge (mem_ranked_mem_scan hc)
  · intro htk
    rw [find_similar_ranked, pySlice_of_nonneg _ htk]
    exact List.length_take_le _ _
  · intro s
    rw [find_similar_ranked]
    have hpre := (pySlice_isPrefix (List.insertionSort scoreGE
      (scanCandidates (r.embed (queryText q)) (FileEmbeddingStore.all disk) ms))
      tk).filter (fun c => decide (c.score = s))
    rwa [filter_insertionSort_of_class _ _ ?_] at hpre
    intro a b ha hb
    have ha' := of_decide_eq_true ha
    have hb' := of_decide_eq_true hb
    unfold scoreGE
    rw [ha', hb']

/-- C2 witness: instantiated on the two-record store with `top_k = 5`,
`min_score = 1/2`, and the tie class at score `1`. -/
theorem find_similar_ranked_sorted_filtered_witness :
    List.Sorted scoreGE (embedOne.find_similar twoDisk queryQ 5 (1 / 2) false "u1").2.1 ∧
    (∀ c ∈ (embedOne.find_similar twoDisk queryQ 5 (1 / 2) false "u1").2.1,
      (1 / 2 : ℝ) ≤ c.score) ∧
    ((embedOne.find_similar twoDisk queryQ 5 (1 / 2) false "u1").2.1).length ≤
      (5 : Int).toNat ∧
    List.IsPrefix
      (((embedOne.find_similar twoDisk queryQ 5 (1 / 2) false "u1").2.1).filter
        (fun c => decide (c.score = 1)))
      ((scanCandidates (embedOne.embed (queryText queryQ))
        (FileEmbeddingStore.all twoDisk) (1 / 2)).filter
        (fun c => decide (c.score = 1))) :=
  ⟨(find_similar_ranked_sorted_filtered embedOne twoDisk queryQ 5 (1 / 2) false "u1").1,
   (find_similar_ranked_sorted_filtered embedOne twoDisk queryQ 5 (1 / 2) false "u1").2.1,
   (find_similar_ranked_sorted_filtered embedOne twoDisk queryQ 5 (1 / 2) false "u1").2.2.1
     (by decide),
   (find_similar_ranked_sorted_filtered embedOne twoDisk queryQ 5 (1 / 2) false "u1").2.2.2 1⟩

/-- The unit vector has cosine similarity `1` with itself. -/
theorem cosine_oneVec : cosine_similarity oneVec oneVec = 1 := by
  have hdot : dot oneVec oneVec = 1 := by
    simp [dot, oneVec]
  have hnorm : vecNorm oneVec = 1 := by
    rw [vecNorm, hdot, Real.sqrt_one]
  unfold cosine_similarity
  rw [if_neg (by simp [oneVec])]
  show (if vecNorm oneVec * vecNorm oneVec = 0 then (0 : ℝ)
    else dot oneVec oneVec / (vecNorm oneVec * vecNorm oneVec)) = 1
  rw [hnorm, hdot]
  norm_num

/-- Scanning the two-record store against `oneVec` with threshold `1/2`
keeps both records, in store order, each with score `1`. -/
theorem scan_twoDisk :
    scanCandidates oneVec (FileEmbeddingStore.all twoDisk) (1 / 2) =
      [⟨"a", none, "summary a", none, 1⟩, ⟨"b", none, "summary b", none, 1⟩] := by
  rw [all_twoDisk]
  unfold scanCandidates
  simp only [List.filterMap_cons, List.filterMap_nil, cosine_oneVec]
  norm_num

/-- C3 counterexample: on a store with two above-threshold candidates,
`find_similar` with `top_k = -1` returns a one-element list — Python's
`candidates[:-1]` drops only the last element — not the empty list the claim
asserts for every `top_k ≤ 0`. -/
theorem find_similar_negative_top_k_not_empty :
    (embedOne.find_similar twoDisk queryQ (-1) (1 / 2) false "u1").2.1 =
      [⟨"a", none, "summary a", none, 1⟩] ∧
    (embedOne.find_similar twoDisk queryQ (-1) (1 / 2) false "u1").2.1 ≠ [] := by
  have hq : embedOne.embed (queryText queryQ) = oneVec := rfl
  have hsort : List.insertionSort scoreGE
      [(⟨"a", none, "summary a", none, 1⟩ : SimilarIssue), ⟨"b", none, "summary b", none, 1⟩] =
      [⟨"a", none, "summary a", none, 1⟩, ⟨"b", none, "summary b", none, 1⟩] := by
    simp [List.insertionSort, List.orderedInsert, scoreGE]
  have hout : (embedOne.find_similar twoDisk queryQ (-1) (1 / 2) false "u1").2.1 =
      [⟨"a", none, "summary a", none, 1⟩] := by
    rw [find_similar_ranked, hq, scan_twoDisk, hsort, pySlice_of_neg _ (by decide)]
    rfl
  exact ⟨hout, by rw [hout]; exact List.cons_ne_nil _ _⟩

/-- C5: `save` followed by the `all` scan yields a record with exactly the
saved `jira_key`, `summary`, `description` and embedding vector (exact
equality in the idealised real-number semantics, hence within floating-point
tolerance). The hypothesis records that a generated uuid4 string is never
empty (an empty id would be falsy and skipped by the scan). -/
theorem save_then_all_roundtrip (disk : DiskState) (fid : String) (jk : Option String)
    (s : String) (d : Option String) (e : List ℝ) (hid : fid ≠ "") :
    (FileEmbeddingStore.save disk fid jk s d e).1.id = fid ∧
    (FileEmbeddingStore.save disk fid jk s d e).1.jira_key = jk ∧
    (FileEmbeddingStore.save disk fid jk s d e).1.summary = s ∧
    (FileEmbeddingStore.save disk fid jk s d e).1.description = d ∧
    (FileEmbeddingStore.save disk fid jk s d e).1.embedding = e ∧
    (FileEmbeddingStore.save disk fid jk s d e).1 ∈
      FileEmbeddingStore.all (FileEmbeddingStore.save disk fid jk s d e).2 := by
  refine ⟨rfl, rfl, rfl, rfl, rfl, ?_⟩
  unfold FileEmbeddingStore.all
  apply List.mem_filterMap.2
  refine ⟨(fid ++ ".json",
    some ⟨false, some fid, jk, some s, d⟩), ?_, ?_⟩
  · apply (List.mem_insertionSort _).2
    exact List.mem_cons_self _ _
  · show FileEmbeddingStore.parseEntry
      (fsWrite disk.npyFiles (fid ++ ".npy") (some e)) _ = _
    unfold FileEmbeddingStore.parseEntry fsWrite
    simp only [hid, List.lookup, if_neg, beq_self_eq_true, ite_false, ite_true]
    rfl

/-- C5 witness: saving under uuid `"u1"` into the empty store. -/
theorem save_then_all_roundtrip_witness :
    (FileEmbeddingStore.save emptyDisk "u1" none "s" none oneVec).1.id = "u1" ∧
    (FileEmbeddingStore.save emptyDisk "u1" none "s" none oneVec).1.jira_key = none ∧
    (FileEmbeddingStore.save emptyDisk "u1" none "s" none oneVec).1.summary = "s" ∧
    (FileEmbeddingStore.save emptyDisk "u1" none "s" none oneVec).1.description = none ∧
    (FileEmbeddingStore.save emptyDisk "u1" none "s" none oneVec).1.embedding = oneVec ∧
    (FileEmbeddingStore.save emptyDisk "u1" none "s" none oneVec).1 ∈
      FileEmbeddingStore.all (FileEmbeddingStore.save emptyDisk "u1" none "s" none oneVec).2 :=
  save_then_all_roundtrip emptyDisk "u1" none "s" none oneVec (by decide)

/-- A store with two valid records among three corrupt artefacts: an
unparseable JSON file, a metadata file whose NPY vector file is missing
(half-written record), and a metadata file whose NPY file fails to load. -/
def corruptDisk : DiskState :=
  ⟨[("a.json", some metaA), ("bad.json", none), ("c.json", some metaC),
    ("d.json", some ⟨false, some "d", none, some "summary d", none⟩),
    ("h.json", some ⟨false, some "h", none, some "summary h", none⟩)],
   [("a.npy", some oneVec), ("c.npy", some oneVec), ("d.npy", none)]⟩

/-- C6: a record that fails to parse or load — an unparseable metadata file,
a metadata file whose vector file is missing or unloadable — is silently
skipped by the `all` scan: the scan never raises (it is a total function),
every record it returns comes from an entry whose parse succeeds, every entry
whose parse succeeds contributes its record, and on a concrete store with two
valid records among three corrupt artefacts exactly the two valid records are
returned. -/
theorem all_skips_corrupt_records (disk : DiskState) :
    (∀ rec ∈ FileEmbeddingStore.all disk, ∃ e ∈ disk.jsonFiles,
      FileEmbeddingStore.parseEntry disk.npyFiles e = some rec) ∧
    (∀ e ∈ disk.jsonFiles, ∀ rec,
      FileEmbeddingStore.parseEntry disk.npyFiles e = some rec →
        rec ∈ FileEmbeddingStore.all disk) ∧
    FileEmbeddingStore.all corruptDisk =
      [⟨"a", none, "summary a", none, oneVec⟩, ⟨"c", none, "summary c", none, oneVec⟩] := by
  refine ⟨?_, ?_, rfl⟩
  · intro rec hrec
    rcases List.mem_filterMap.1 hrec with ⟨e, he, hp⟩
    exact ⟨e, (List.mem_insertionSort _).1 he, hp⟩
  · intro e he rec hp
    exact List.mem_filterMap.2 ⟨e, (List.mem_insertionSort _).2 he, hp⟩

/-- C6 witness: the valid record `"a"` of the corrupt store is returned by
the scan in spite of its corrupt neighbours. -/
theorem all_skips_corrupt_records_witness :
    (⟨"a", none, "summary a", none, oneVec⟩ : StoredIssue) ∈
      FileEmbeddingStore.all corruptDisk :=
  (all_skips_corrupt_records corruptDisk).2.1 ("a.json", some metaA) (by decide) _ rfl

/-- A store mixing one valid record `"a"` with two legacy-format records that
are otherwise well-formed (valid JSON, a summary, even a matching NPY file):
`"x"` still carries the `"embedding"` key and `"y"` lacks an `"id"`. -/
def mixedDisk : DiskState :=
  ⟨[("a.json", some metaA),
    ("x.json", some ⟨true, some "x", none, some "summary x", none⟩),
    ("y.json", some ⟨false, none, none, some "summary y", none⟩)],
   [("a.npy", some oneVec), ("x.npy", some oneVec), ("y.npy", some oneVec)]⟩

/-- C10: the `all` scan silently excludes every entry whose metadata JSON
carries the legacy `"embedding"` key or lacks a truthy `"id"` — even when
the file is otherwise well-formed, and even when it sits alongside valid
records: on any store, every such entry's per-file parse yields `none`, so
every record the scan returns comes from a non-legacy entry; consequently a
corpus consisting only of legacy records is invisible to `list`, and on a
concrete mixed store only the valid record is returned. -/
theorem all_excludes_legacy_format (disk : DiskState) :
    (∀ e ∈ disk.jsonFiles, ∀ m : RawMeta, e.2 = some m →
      m.hasEmbeddingKey = true ∨ m.id = none ∨ m.id = some "" →
        FileEmbeddingStore.parseEntry disk.npyFiles e = none) ∧
    (∀ rec ∈ FileEmbeddingStore.all disk, ∃ e ∈ disk.jsonFiles, ∃ m : RawMeta,
      e.2 = some m ∧ m.hasEmbeddingKey = false ∧ m.id ≠ none ∧ m.id ≠ some "" ∧
      FileEmbeddingStore.parseEntry disk.npyFiles e = some rec) ∧
    ((∀ e ∈ disk.jsonFiles, ∀ m : RawMeta, e.2 = some m →
      m.hasEmbeddingKey = true ∨ m.id = none ∨ m.id = some "") →
      FileEmbeddingStore.all disk = []) ∧
    FileEmbeddingStore.all mixedDisk = [⟨"a", none, "summary a", none, oneVec⟩] := by
  have hskip : ∀ e ∈ disk.jsonFiles, ∀ m : RawMeta, e.2 = some m →
      m.hasEmbeddingKey = true ∨ m.id = none ∨ m.id = some "" →
        FileEmbeddingStore.parseEntry disk.npyFiles e = none := by
    intro e _ m hm hleg
    unfold FileEmbeddingStore.parseEntry
    rw [hm]
    rcases hleg with h1 | h1 | h1
    · simp [h1]
    · simp [h1, ite_self]
    · simp [h1, ite_self]
  refine ⟨hskip, ?_, ?_, rfl⟩
  · intro rec hrec
    rcases List.mem_filterMap.1 hrec with ⟨e, hes, hp⟩
    have he : e ∈ disk.jsonFiles := (List.mem_insertionSort _).1 hes
    rcases e with ⟨name, _ | m⟩
    · exact absurd hp (by simp [FileEmbeddingStore.parseEntry])
    · refine ⟨(name, some m), he, m, rfl, ?_, ?_, ?_, hp⟩
      · by_contra hk
        rw [Bool.not_eq_false] at hk
        rw [hskip _ he m rfl (Or.inl hk)] at hp
        cases hp
      · intro hid
        rw [hskip _ he m rfl (Or.inr (Or.inl hid))] at hp
        cases hp
      · intro hid
        rw [hskip _ he m rfl (Or.inr (Or.inr hid))] at hp
        cases hp
  · intro hall
    apply List.filterMap_eq_nil_iff.2
    intro e he
    have he' : e ∈ disk.jsonFiles := (List.mem_insertionSort _).1 he
    rcases e with ⟨name, _ | m⟩
    · rfl
    · exact hskip _ he' m rfl (hall _ he' m rfl)

/-- A store written entirely in the legacy single-JSON format: the metadata
file is well-formed JSON with an id, a summary and even a matching NPY file,
but still carries the `"embedding"` key. -/
def legacyDisk : DiskState :=
  ⟨[("x.json", some ⟨true, some "x", none, some "summary x", none⟩)],
   [("x.npy", some oneVec)]⟩

/-- C10 witness: on the mixed store the legacy entry `"x"` parses to `none`
although its NPY file exists, and the all-legacy corpus scans to the empty
list. -/
theorem all_excludes_legacy_format_witness :
    FileEmbeddingStore.parseEntry mixedDisk.npyFiles
      ("x.json", some ⟨true, some "x", none, some "summary x", none⟩) = none ∧
    FileEmbeddingStore.all legacyDisk = [] :=
  ⟨(all_excludes_legacy_format mixedDisk).1
    ("x.json", some ⟨true, some "x", none, some "summary x", none⟩)
    (by decide) _ rfl (Or.inl rfl),
   (all_excludes_legacy_format legacyDisk).2.2.1 (by
    intro e he m hm
    simp only [legacyDisk, List.mem_singleton] at he
    subst he
    have hm' := Option.some.inj hm
    subst hm'
    left
    rfl)⟩

/-! ### The hash provider's count vector, characterised by counting -/

/-- The accumulation loop preserves the vector's length. -/
theorem length_foldl_bump (f : String → Nat) (ts : List String) (v : List ℝ) :
    (ts.foldl (fun w t => bump w (f t)) v).length = v.length := by
  induction ts generalizing v with
  | nil => rfl
  | cons t ts ih =>
    rw [List.foldl_cons, ih]
    simp [bump]

/-- Slot `i` after the accumulation loop holds its initial value plus the
number of processed tokens that map to index `i`. -/
theorem getD_foldl_bump (f : String → Nat) (ts : List String) :
    ∀ (v : List ℝ) (i : Nat), (∀ t ∈ ts, f t < v.length) →
      (ts.foldl (fun w t => bump w (f t)) v).getD i 0 =
        v.getD i 0 + ((ts.countP (fun t => decide (f t = i)) : ℕ) : ℝ) := by
  induction ts with
  | nil => intro v i _; simp
  | cons t ts ih =>
    intro v i h
    have hft : f t < v.length := h t (List.mem_cons_self t ts)
    have hlen : (bump v (f t)).length = v.length := by simp [bump]
    rw [List.foldl_cons,
      ih (bump v (f t)) i (by rw [hlen]; exact fun u hu => h u (List.mem_cons_of_mem t hu))]
    have hb : (bump v (f t)).getD i 0 = v.getD i 0 + if f t = i then 1 else 0 := by
      by_cases hfi : f t = i
      · subst hfi
        rw [bump, List.getD_eq_getElem?_getD, List.getElem?_set_eq_of_lt _ hft]
        simp
      · rw [bump, List.getD_eq_getElem?_getD, List.getElem?_set_ne hfi,
          ← List.getD_eq_getElem?_getD]
        simp [hfi]
    rw [hb, List.countP_cons]
    push_cast
    by_cases hfi : f t = i
    · simp only [hfi]
      norm_num
      ring
    · simp [hfi]

/-- The count vector has the configured dimension. -/
theorem countVec_length (hashFn : String → Int) (dim : Nat) (ts : List String) :
    (countVec hashFn dim ts).length = dim := by
  unfold countVec
  rw [length_foldl_bump]
  simp

/-- With a positive dimension, every token index lands in `[0, dim)` —
Python's `%` on a positive modulus is non-negative and bounded. -/
theorem tokenIdx_lt (hashFn : String → Int) {dim : Nat} (hdim : 0 < dim)
    (t : String) : tokenIdx hashFn dim t < dim := by
  unfold tokenIdx
  have h0 : (0 : Int) < (dim : Int) := by exact_mod_cast hdim
  have h1 := Int.emod_lt_of_pos (hashFn t) h0
  have h2 := Int.emod_nonneg (hashFn t) (by omega : (dim : Int) ≠ 0)
  omega

/-- The count vector in the spec's words: slot `i` holds the number of tokens
whose hash modulo the dimension equals `i`. -/
def specCountVec (hashFn : String → Int) (dim : Nat) (ts : List String) : List ℝ :=
  (List.range dim).map
    (fun i => ((ts.countP (fun t => decide (tokenIdx hashFn dim t = i)) : ℕ) : ℝ))

/-- Slot `i` of the loop's count vector equals the token count at `i`. -/
theorem countVec_getD (hashFn : String → Int) {dim : Nat} (hdim : 0 < dim)
    (ts : List String) (i : Nat) :
    (countVec hashFn dim ts).getD i 0 =
      ((ts.countP (fun t => decide (tokenIdx hashFn dim t = i)) : ℕ) : ℝ) := by
  unfold countVec
  rw [getD_foldl_bump _ _ _ _ (by
    intro t _
    rw [List.length_replicate]
    exact tokenIdx_lt hashFn hdim t)]
  rw [List.getD_eq_getElem?_getD, List.getElem?_replicate]
  by_cases hi : i < dim <;> simp [hi]

/-- The imperative accumulation loop computes exactly the declarative count
vector of the spec. -/
theorem countVec_eq_spec (hashFn : String → Int) {dim : Nat} (hdim : 0 < dim)
    (ts : List String) : countVec hashFn dim ts = specCountVec hashFn dim ts := by
  apply List.ext_getElem
  · rw [countVec_length]
    simp [specCountVec]
  · intro i h1 h2
    rw [← List.getD_eq_getElem _ 0 h1, countVec_getD hashFn hdim ts i]
    simp [specCountVec]

/-- The spec-side count vector has the configured dimension. -/
theorem specCountVec_length (hashFn : String → Int) (dim : Nat) (ts : List String) :
    (specCountVec hashFn dim ts).length = dim := by
  simp [specCountVec]

/-- C7 (amended): for every provider with a positive configured dimension
`dim`, `embed` returns (never raises) a vector of exactly `dim` entries: the
all-zeros vector for empty input, and otherwise the count vector obtained by
lowercasing, splitting on whitespace and incrementing the slot at each
token's hash modulo `dim` — divided by its L2 norm when that norm is
nonzero, and unmodified (no division) when the norm is zero. -/
theorem embed_spec_of_pos_dim (hashFn : String → Int) (dim : Nat) (text : String)
    (hdim : 0 < dim) :
    ∃ v, SimpleHashEmbeddingProvider.embed hashFn dim text = some v ∧
      v.length = dim ∧
      (text = "" → v = List.replicate dim 0) ∧
      (text ≠ "" →
        (vecNorm (specCountVec hashFn dim (pyTokens text)) = 0 →
          v = specCountVec hashFn dim (pyTokens text)) ∧
        (vecNorm (specCountVec hashFn dim (pyTokens text)) ≠ 0 →
          v = (specCountVec hashFn dim (pyTokens text)).map
            (fun x => x / vecNorm (specCountVec hashFn dim (pyTokens text))))) := by
  unfold SimpleHashEmbeddingProvider.embed
  by_cases ht : text = ""
  · rw [if_pos ht]
    exact ⟨_, rfl, by simp, fun _ => rfl, fun h => absurd ht h⟩
  · rw [if_neg ht, if_neg (fun hc => absurd hc.1 (Nat.pos_iff_ne_zero.1 hdim))]
    show ∃ v,
      (if 0 < vecNorm (countVec hashFn dim (pyTokens text)) then
        some ((countVec hashFn dim (pyTokens text)).map
          (fun x => x / vecNorm (countVec hashFn dim (pyTokens text))))
      else some (countVec hashFn dim (pyTokens text))) = some v ∧ _
    rw [countVec_eq_spec hashFn hdim (pyTokens text)]
    by_cases hn : vecNorm (specCountVec hashFn dim (pyTokens text)) = 0
    · rw [if_neg (by rw [hn]; exact lt_irrefl 0)]
      exact ⟨_, rfl, specCountVec_length hashFn dim (pyTokens text),
        fun h => absurd h ht, fun _ => ⟨fun _ => rfl, fun hne => absurd hn hne⟩⟩
    · have hpos : 0 < vecNorm (specCountVec hashFn dim (pyTokens text)) :=
        lt_of_le_of_ne (Real.sqrt_nonneg _) (Ne.symm hn)
      rw [if_pos hpos]
      refine ⟨_, rfl, ?_, fun h => absurd h ht,
        fun _ => ⟨fun h0 => absurd h0 hn, fun _ => rfl⟩⟩
      rw [List.length_map]
      exact specCountVec_length hashFn dim (pyTokens text)

/-- C7 witness: a dimension-1 provider on the empty text. -/
theorem embed_spec_of_pos_dim_witness :
    ∃ v, SimpleHashEmbeddingProvider.embed (fun _ => 0) 1 "" = some v ∧
      v.length = 1 ∧
      ("" = "" → v = List.replicate 1 0) ∧
      ("" ≠ "" →
        (vecNorm (specCountVec (fun _ => 0) 1 (pyTokens "")) = 0 →
          v = specCountVec (fun _ => 0) 1 (pyTokens "")) ∧
        (vecNorm (specCountVec (fun _ => 0) 1 (pyTokens "")) ≠ 0 →
          v = (specCountVec (fun _ => 0) 1 (pyTokens "")).map
            (fun x => x / vecNorm (specCountVec (fun _ => 0) 1 (pyTokens ""))))) :=
  embed_spec_of_pos_dim (fun _ => 0) 1 "" (by decide)

/-- C7 counterexample: with configured dimension `0` and the non-empty input
`"a"`, the Python code raises `ZeroDivisionError` at `hash(token) % 0`
instead of returning a vector of the configured dimension. -/
theorem embed_dim_zero_raises :
    SimpleHashEmbeddingProvider.embed (fun _ => 0) 0 "a" = none := rfl

end RelatedIdeas
